import Mathlib

/-!
Shallow embedding of `shortcut_client.py`, the BeeAI ⇄ Shortcut bootstrapper.

The Python program reconciles a declarative configuration (projects, one
milestone, epics, an optional iteration, stories with nested tasks) against a
remote REST API, keyed by caller-assigned `external_id` strings.

Modelling conventions:
* Python dicts that travel over the wire (payloads and remote records) are
  association lists `Dict := List (String × JVal)` with a JSON-like value
  type `JVal`; `dget` models Python's `d.get(k)` (first binding wins, like a
  Python dict in which each key is written at most once by this program).
* The remote service is modelled as a well-behaved in-memory store: `GET`
  lists a collection, `POST` appends the payload with a fresh numeric id and
  returns the created record, `PUT id` replaces the record's fields with the
  payload (keeping `id`) and returns the updated record, and every request
  succeeds with a 2xx status.  The HTTP retry loop `_req` is modelled
  separately (over an arbitrary status sequence) for the retry claims.
* `sys.exit(2)` is modelled as `Halt.exit2`; an uncaught Python exception
  (such as the `KeyError` raised by `cfg["milestone"]` when the key is
  absent) is modelled as `Halt.keyError` — a CPython process dying on an
  uncaught exception exits with code 1, not 2.
* Wall-clock time is abstracted as a day number: `datetime.now(tz)` becomes
  a parameter `nowInTz : String → Int` giving, for each timezone name, the
  current day counted from an epoch falling on a Monday (so Python's
  `weekday()` is `day % 7`).  Rendering a computed day as an ISO date string
  is abstracted by `dayIso`.
* Only stdout lines are collected in `prints`; error messages written to
  stderr are not modelled (the `Halt` outcome carries that information).
-/

/-- JSON-like values carried in payloads and remote records.  The only
array-valued fields this program ever builds are `labels`, whose elements
are plain strings, so arrays carry strings. -/
inductive JVal where
  | s (v : String)
  | n (v : Int)
  | arr (vs : List String)
  | jnull
deriving DecidableEq, Repr

/-- A Python dict as used by the client: an association list. -/
abbrev Dict := List (String × JVal)

/-- Python `d.get(k)`: the value bound to `k`, if any. -/
def dget (d : Dict) (k : String) : Option JVal :=
  (d.find? (fun kv => kv.1 == k)).map (fun kv => kv.2)

/-- Python truthiness for the values this program stores in payloads
(`payload = {k:v for k,v in payload.items() if v}` in `upsert_iteration`). -/
def jTruthy : JVal → Bool
  | .s v => !v.isEmpty
  | .n v => v != 0
  | .arr vs => !vs.isEmpty
  | .jnull => false

/-- The numeric id of a remote record (`rec["id"]`); records produced by the
remote-store model always carry one. -/
def recId (d : Dict) : Int :=
  match dget d "id" with
  | some (.n i) => i
  | _ => -1

/-- The `name` field of a remote record, used in `[ok]` status lines. -/
def recName (d : Dict) : String :=
  match dget d "name" with
  | some (.s v) => v
  | _ => ""

/-- The `external_id` field of a payload or record (`rec["external_id"]`). -/
def recExt (d : Dict) : String :=
  match dget d "external_id" with
  | some (.s v) => v
  | _ => ""

/-- One HTTP call issued by the client, as recorded in a run trace. -/
inductive ApiCall where
  | get (path : String)
  | post (path : String) (payload : Dict)
  | put (path : String) (rid : Int) (payload : Dict)
deriving DecidableEq, Repr

/-- How a run can terminate early: `sys.exit(2)`, or an uncaught Python
exception (`KeyError k`), which makes the process exit with code 1. -/
inductive Halt where
  | exit2
  | keyError (key : String)
deriving DecidableEq, Repr

/-- Process exit code of an outcome: 0 on success, 2 for `sys.exit(2)`,
1 for an uncaught exception. -/
def exitCode : Except Halt Unit → Nat
  | .ok _ => 0
  | .error .exit2 => 2
  | .error (.keyError _) => 1

/-- The remote service's collections, plus the next fresh numeric id. -/
structure Store where
  projects : List Dict
  milestones : List Dict
  epics : List Dict
  iterations : List Dict
  stories : List Dict
  tasks : List Dict
  nextId : Nat
deriving DecidableEq, Repr

/-- An empty remote store. -/
def Store.empty : Store :=
  { projects := [], milestones := [], epics := [], iterations := []
    stories := [], tasks := [], nextId := 1 }

/-! ## Retry loop (`_req`)

`_req` issues up to `retry` attempts; a status in {429, 500, 502, 503, 504}
triggers a sleep of `min(2 ** (attempt-1) * 0.5, 8.0)` seconds and another
attempt; any other status is returned at once; after the last attempt the
last response is returned.  The response of each (1-based) attempt is
abstracted as `resps : Nat → Nat` (a status code per attempt). -/

/-- Statuses that `_req` retries on. -/
def retryableStatus (code : Nat) : Bool :=
  code == 429 || code == 500 || code == 502 || code == 503 || code == 504

/-- The sleep `min(2 ** (attempt-1) * 0.5, 8.0)` (in seconds) taken after a
retryable response to the given 1-based attempt. -/
def backoff (attempt : Nat) : ℚ :=
  min ((2 : ℚ) ^ (attempt - 1) * (1 / 2)) 8

/-- Result of the `_req` retry loop: how many requests were issued, the
status returned to the caller, and the sleeps taken, in order. -/
structure ReqResult where
  attempts : Nat
  status : Nat
  sleeps : List ℚ
deriving DecidableEq, Repr

/-- The body of `_req`'s `for attempt in range(1, retry+1)` loop, starting at
the given attempt with the given number of loop iterations remaining. -/
def reqAux (resps : Nat → Nat) (attempt : Nat) : Nat → ReqResult
  | 0 => { attempts := 0, status := 0, sleeps := [] }
  | remaining + 1 =>
    let code := resps attempt
    if retryableStatus code then
      if remaining == 0 then
        { attempts := 1, status := code, sleeps := [backoff attempt] }
      else
        let rest := reqAux resps (attempt + 1) remaining
        { attempts := rest.attempts + 1, status := rest.status
          sleeps := backoff attempt :: rest.sleeps }
    else
      { attempts := 1, status := code, sleeps := [] }

/-- Model of `_req(method, path, payload, retry=5)` restricted to its retry
behaviour: the per-attempt statuses are given by `resps`. -/
def reqModel (resps : Nat → Nat) (retry : Nat := 5) : ReqResult :=
  reqAux resps 1 retry

/-! ## Iteration window (`_iso_week_dates`)

Days are counted from an epoch falling on a Monday, so Python's
`now.weekday()` (Monday = 0 … Sunday = 6) is `now % 7`. -/

/-- Python `now.weekday()` on the day-number model. -/
def pyWeekday (day : Int) : Int := day % 7

/-- Model of `_iso_week_dates(tzname, iteration_length_days)`: from `now`
(the current day number in the configured timezone) compute the Monday of
the current ISO week and that Monday plus `iteration_length_days - 1`. -/
def iso_week_dates (nowDay : Int) (iteration_length_days : Int) : Int × Int :=
  let monday := nowDay - pyWeekday nowDay
  (monday, monday + (iteration_length_days - 1))

/-- Abstract ISO rendering of a computed day number (stands for
`date.isoformat()`; its exact format is irrelevant to the claims). -/
def dayIso (day : Int) : String := "D" ++ toString day

/-- A start/end date as it flows into the iteration payload: either taken
verbatim from the configuration, or computed by `_iso_week_dates`. -/
inductive DateVal where
  | cfgDate (v : String)
  | computedDate (day : Int)
deriving DecidableEq, Repr

/-- String form of a `DateVal`, as placed into the iteration payload. -/
def dateValStr : DateVal → String
  | .cfgDate v => v
  | .computedDate day => dayIso day

/-! ## Configuration (the YAML desired-state document) -/

/-- One entry of `cfg["projects"]`. -/
structure ProjectCfg where
  name : String
  description : Option String
  external_id : String
deriving DecidableEq, Repr

/-- The `cfg["milestone"]` block. -/
structure MilestoneCfg where
  name : String
  description : Option String
  state : Option String
  external_id : String
deriving DecidableEq, Repr

/-- One entry of `cfg["epics"]`. -/
structure EpicCfg where
  name : String
  description : Option String
  labels : Option (List String)
  external_id : String
deriving DecidableEq, Repr

/-- The optional `cfg["iteration"]` block (absent or empty ⇒ `none`, matching
Python's falsiness test `if it_cfg:`). -/
structure IterationCfg where
  name : String
  start_date : Option String
  end_date : Option String
  external_id : String
deriving DecidableEq, Repr

/-- One entry of `cfg["stories"]`. -/
structure StoryCfg where
  name : String
  description : Option String
  story_type : Option String
  project : String
  epic : String
  estimate : Option Int
  labels : Option (List String)
  external_id : String
  tasks : Option (List String)
deriving DecidableEq, Repr

/-- The `cfg["org"]` block. -/
structure OrgCfg where
  timezone : Option String
  iteration_length_days : Option Int
deriving DecidableEq, Repr

/-- The whole configuration document.  `none` models an absent key, so
`cfg.get(k, default)` is `getD` and `cfg[k]` raises `KeyError` on `none`. -/
structure Config where
  org : Option OrgCfg
  projects : Option (List ProjectCfg)
  milestone : Option MilestoneCfg
  epics : Option (List EpicCfg)
  iteration : Option IterationCfg
  stories : Option (List StoryCfg)
deriving DecidableEq, Repr

/-- Python falsiness of an optional string (`not start`): absent or empty. -/
def falsyStr : Option String → Bool
  | none => true
  | some v => v.isEmpty

/-! ## Entity helpers (find / create / update / upsert)

Each helper returns its result together with the updated collection, the
next fresh id, and the HTTP calls it issued.  The remote store assigns
`nextId` to created records and replaces all fields (except `id`) on update,
returning the written record — the well-behaved-server model. -/

/-- Linear scan for the first record whose `external_id` equals the desired
one (`m.get("external_id") == external_id` in Python). -/
def findByExternalId (coll : List Dict) (external_id : String) : Option Dict :=
  coll.find? (fun r => dget r "external_id" == some (.s external_id))

/-- The record the remote store returns for a create with fresh id `nid`. -/
def createdRec (nid : Nat) (payload : Dict) : Dict :=
  ("id", .n (Int.ofNat nid)) :: payload

/-- The record the remote store returns for an update of record `rid`. -/
def updatedRec (rid : Int) (payload : Dict) : Dict :=
  ("id", .n rid) :: payload

/-- Replace the record with numeric id `rid` by the updated record. -/
def storeUpdate (coll : List Dict) (rid : Int) (payload : Dict) : List Dict :=
  coll.map (fun r => if recId r == rid then updatedRec rid payload else r)

/-- The payload `upsert_project` sends to `create_project`. -/
def project_payload (p : ProjectCfg) : Dict :=
  [("name", .s p.name),
   ("description", .s (p.description.getD "")),
   ("external_id", .s p.external_id)]

/-- `upsert_project(p)`: list, scan by external id; if found, return the
found record as-is (no update call); else create with the full payload. -/
def upsert_project (p : ProjectCfg) (coll : List Dict) (nid : Nat) :
    Dict × List Dict × Nat × List ApiCall :=
  match findByExternalId coll p.external_id with
  | some found => (found, coll, nid, [.get "/projects"])
  | none =>
    let payload := project_payload p
    (createdRec nid payload, coll ++ [createdRec nid payload], nid + 1,
     [.get "/projects", .post "/projects" payload])

/-- The payload `upsert_milestone` builds. -/
def milestone_payload (m : MilestoneCfg) : Dict :=
  [("name", .s m.name),
   ("description", .s (m.description.getD "")),
   ("state", .s (m.state.getD "to_do")),
   ("external_id", .s m.external_id)]

/-- `upsert_milestone(m)`: list, scan; update the found record's id with the
full payload, else create with the same payload. -/
def upsert_milestone (m : MilestoneCfg) (coll : List Dict) (nid : Nat) :
    Dict × List Dict × Nat × List ApiCall :=
  let payload := milestone_payload m
  match findByExternalId coll m.external_id with
  | some found =>
    (updatedRec (recId found) payload, storeUpdate coll (recId found) payload,
     nid, [.get "/milestones", .put "/milestones" (recId found) payload])
  | none =>
    (createdRec nid payload, coll ++ [createdRec nid payload], nid + 1,
     [.get "/milestones", .post "/milestones" payload])

/-- The payload `upsert_epic` builds (the milestone's remote id injected). -/
def epic_payload (e : EpicCfg) (milestone_id : Int) : Dict :=
  [("name", .s e.name),
   ("description", .s (e.description.getD "")),
   ("milestone_id", .n milestone_id),
   ("labels", .arr (e.labels.getD [])),
   ("external_id", .s e.external_id)]

/-- `upsert_epic(e, milestone_id)`: list, scan; update the found record's id
with the full payload, else create with the same payload. -/
def upsert_epic (e : EpicCfg) (milestone_id : Int) (coll : List Dict) (nid : Nat) :
    Dict × List Dict × Nat × List ApiCall :=
  let payload := epic_payload e milestone_id
  match findByExternalId coll e.external_id with
  | some found =>
    (updatedRec (recId found) payload, storeUpdate coll (recId found) payload,
     nid, [.get "/epics", .put "/epics" (recId found) payload])
  | none =>
    (createdRec nid payload, coll ++ [createdRec nid payload], nid + 1,
     [.get "/epics", .post "/epics" payload])

/-- `upsert_iteration(i)`: the payload is filtered to its truthy values
(`{k:v for k,v in payload.items() if v}`) before being sent. -/
def upsert_iteration (payload0 : Dict) (coll : List Dict) (nid : Nat) :
    Dict × List Dict × Nat × List ApiCall :=
  let payload := payload0.filter (fun kv => jTruthy kv.2)
  match findByExternalId coll (recExt payload0) with
  | some found =>
    (updatedRec (recId found) payload, storeUpdate coll (recId found) payload,
     nid, [.get "/iterations", .put "/iterations" (recId found) payload])
  | none =>
    (createdRec nid payload, coll ++ [createdRec nid payload], nid + 1,
     [.get "/iterations", .post "/iterations" payload])

/-- `upsert_story(s)`: `s` is the fully assembled story payload; list, scan
by `s["external_id"]`; update the found record's id with the full payload,
else create. -/
def upsert_story (payload : Dict) (coll : List Dict) (nid : Nat) :
    Dict × List Dict × Nat × List ApiCall :=
  match findByExternalId coll (recExt payload) with
  | some found =>
    (updatedRec (recId found) payload, storeUpdate coll (recId found) payload,
     nid, [.get "/stories", .put "/stories" (recId found) payload])
  | none =>
    (createdRec nid payload, coll ++ [createdRec nid payload], nid + 1,
     [.get "/stories", .post "/stories" payload])

/-- `create_task(payload)`: unconditional create, no lookup and no update. -/
def create_task (payload : Dict) (coll : List Dict) (nid : Nat) :
    Dict × List Dict × Nat × List ApiCall :=
  (createdRec nid payload, coll ++ [createdRec nid payload], nid + 1,
   [.post "/tasks" payload])

/-- The synthesized task external id
`f"beeai:task:{s['external_id']}:{idx}"`. -/
def taskExternalId (story_external_id : String) (idx : Nat) : String :=
  "beeai:task:" ++ story_external_id ++ ":" ++ toString idx

/-- The task payload built in the story loop of `bootstrap`. -/
def task_payload (t : String) (story_id : Int) (story_external_id : String)
    (idx : Nat) : Dict :=
  [("description", .s t),
   ("story_id", .n story_id),
   ("external_id", .s (taskExternalId story_external_id idx))]

/-! ## Bootstrap orchestration

Every stage returns `(outcome, store, calls, prints)`.  `tok` models the
`SHORTCUT_TOKEN` environment variable: it is consulted only when an HTTP
request is actually issued (Python's `_hdrs`, called from `_req`), and a
missing token is `sys.exit(2)`.  `dry` short-circuits every network call. -/

/-- A name → remote-record mapping (`name_to_project`, `name_to_epic`).
Insertion prepends, lookup takes the first hit, so the most recent
assignment wins — the observable behaviour of a Python dict. -/
abbrev NameMap := List (String × Dict)

/-- Python dict assignment `m[k] = v`. -/
def minsert (m : NameMap) (k : String) (v : Dict) : NameMap := (k, v) :: m

/-- Python dict lookup `m.get(k)`. -/
def lookupName (m : NameMap) (k : String) : Option Dict :=
  (m.find? (fun kv => kv.1 == k)).map (fun kv => kv.2)

/-- The placeholder record `{"id": 0}` substituted in dry-run mode. -/
def dictId0 : Dict := [("id", .n 0)]

/-- `cfg.get("org", {}).get("timezone", "UTC")`. -/
def orgTimezone (cfg : Config) : String :=
  match cfg.org with
  | none => "UTC"
  | some o => o.timezone.getD "UTC"

/-- `int(cfg.get("org", {}).get("iteration_length_days", 7))`. -/
def orgIterLen (cfg : Config) : Int :=
  match cfg.org with
  | none => 7
  | some o => o.iteration_length_days.getD 7

/-- The projects stage: upsert (or dry-print) each configured project and
build the `name_to_project` mapping. -/
def stageProjects (tok : Option String) (dry : Bool) :
    List ProjectCfg → NameMap → Store →
    Except Halt NameMap × Store × List ApiCall × List String
  | [], acc, st => (.ok acc, st, [], [])
  | p :: rest, acc, st =>
    if dry then
      match stageProjects tok dry rest (minsert acc p.name dictId0) st with
      | (r, st', cs, ls) =>
        (r, st', cs,
         ("[dry-run] upsert project: " ++ p.name ++ " (" ++ p.external_id ++ ")") :: ls)
    else
      match tok with
      | none => (.error .exit2, st, [], [])
      | some _ =>
        match upsert_project p st.projects st.nextId with
        | (proj, coll', nid', cs0) =>
          let st1 := { st with projects := coll', nextId := nid' }
          match stageProjects tok dry rest (minsert acc p.name proj) st1 with
          | (r, st', cs, ls) =>
            (r, st', cs0 ++ cs,
             ("[ok] project: " ++ recName proj ++ " id=" ++ toString (recId proj)) :: ls)

/-- The milestone stage.  `cfg["milestone"]` is read before the dry-run
test, so a missing block raises `KeyError` in both modes. -/
def stageMilestone (tok : Option String) (dry : Bool) (cfg : Config) (st : Store) :
    Except Halt Dict × Store × List ApiCall × List String :=
  match cfg.milestone with
  | none => (.error (.keyError "milestone"), st, [], [])
  | some m =>
    if dry then
      (.ok dictId0, st, [], ["[dry-run] upsert milestone: " ++ m.name])
    else
      match tok with
      | none => (.error .exit2, st, [], [])
      | some _ =>
        match upsert_milestone m st.milestones st.nextId with
        | (ms, coll', nid', cs) =>
          (.ok ms, { st with milestones := coll', nextId := nid' }, cs,
           ["[ok] milestone: " ++ recName ms ++ " id=" ++ toString (recId ms)])

/-- The epics stage: upsert (or dry-print) each configured epic, injecting
the milestone's remote id, and build the `name_to_epic` mapping. -/
def stageEpics (tok : Option String) (dry : Bool) (milestone_id : Int) :
    List EpicCfg → NameMap → Store →
    Except Halt NameMap × Store × List ApiCall × List String
  | [], acc, st => (.ok acc, st, [], [])
  | e :: rest, acc, st =>
    if dry then
      match stageEpics tok dry milestone_id rest (minsert acc e.name dictId0) st with
      | (r, st', cs, ls) =>
        (r, st', cs, ("[dry-run] upsert epic: " ++ e.name) :: ls)
    else
      match tok with
      | none => (.error .exit2, st, [], [])
      | some _ =>
        match upsert_epic e milestone_id st.epics st.nextId with
        | (ep, coll', nid', cs0) =>
          let st1 := { st with epics := coll', nextId := nid' }
          match stageEpics tok dry milestone_id rest (minsert acc e.name ep) st1 with
          | (r, st', cs, ls) =>
            (r, st', cs0 ++ cs,
             ("[ok] epic: " ++ recName ep ++ " id=" ++ toString (recId ep)) :: ls)

/-- The start/end dates that flow into the iteration payload: taken verbatim
from the configuration when both are truthy, otherwise both recomputed by
`_iso_week_dates` from the configured timezone and iteration length. -/
def iterationWindow (it : IterationCfg) (cfg : Config) (nowInTz : String → Int) :
    DateVal × DateVal :=
  if falsyStr it.start_date || falsyStr it.end_date then
    let w := iso_week_dates (nowInTz (orgTimezone cfg)) (orgIterLen cfg)
    (.computedDate w.1, .computedDate w.2)
  else
    (.cfgDate (it.start_date.getD ""), .cfgDate (it.end_date.getD ""))

/-- The iteration payload assembled in `bootstrap`. -/
def iteration_payload (it : IterationCfg) (w : DateVal × DateVal) : Dict :=
  [("name", .s it.name),
   ("start_date", .s (dateValStr w.1)),
   ("end_date", .s (dateValStr w.2)),
   ("external_id", .s it.external_id)]

/-- The iteration stage: absent block ⇒ no iteration (`iteration = None`);
otherwise resolve the window and upsert (or dry-print). -/
def stageIteration (tok : Option String) (dry : Bool) (cfg : Config)
    (nowInTz : String → Int) (st : Store) :
    Except Halt (Option Dict) × Store × List ApiCall × List String :=
  match cfg.iteration with
  | none => (.ok none, st, [], [])
  | some it =>
    let w := iterationWindow it cfg nowInTz
    let payload := iteration_payload it w
    if dry then
      (.ok (some dictId0), st, [],
       ["[dry-run] upsert iteration: " ++ it.name ++ " " ++ dateValStr w.1
          ++ ".." ++ dateValStr w.2])
    else
      match tok with
      | none => (.error .exit2, st, [], [])
      | some _ =>
        match upsert_iteration payload st.iterations st.nextId with
        | (itr, coll', nid', cs) =>
          (.ok (some itr), { st with iterations := coll', nextId := nid' }, cs,
           ["[ok] iteration: " ++ recName itr ++ " id=" ++ toString (recId itr)])

/-- The story payload assembled in `bootstrap`'s story loop.  The
`iteration_id` key is added only when an iteration exists. -/
def story_payload (s : StoryCfg) (proj epic : Dict) (itr : Option Dict) : Dict :=
  let base : Dict :=
    [("name", .s s.name),
     ("description", .s (s.description.getD "")),
     ("story_type", .s (s.story_type.getD "feature")),
     ("project_id", .n (recId proj)),
     ("epic_id", .n (recId epic)),
     ("estimate", .n (s.estimate.getD 1)),
     ("labels", .arr (s.labels.getD [])),
     ("external_id", .s s.external_id)]
  match itr with
  | some itrec => base ++ [("iteration_id", .n (recId itrec))]
  | none => base

/-- The task loop of a story: `for idx, t in enumerate(s.get("tasks", []),
start=1)`.  `create_task` is called unconditionally — no lookup, no
update. -/
def processTasks (tok : Option String) (dry : Bool) (story : Dict)
    (story_external_id : String) :
    List String → Nat → Store →
    Except Halt Unit × Store × List ApiCall × List String
  | [], _, st => (.ok (), st, [], [])
  | t :: rest, idx, st =>
    let payload := task_payload t (recId story) story_external_id idx
    if dry then
      match processTasks tok dry story story_external_id rest (idx + 1) st with
      | (r, st', cs, ls) =>
        (r, st', cs, ("[dry-run]   task: " ++ t) :: ls)
    else
      match tok with
      | none => (.error .exit2, st, [], [])
      | some _ =>
        match create_task payload st.tasks st.nextId with
        | (task, coll', nid', cs0) =>
          let st1 := { st with tasks := coll', nextId := nid' }
          match processTasks tok dry story story_external_id rest (idx + 1) st1 with
          | (r, st', cs, ls) =>
            (r, st', cs0 ++ cs,
             ("[ok]   task id=" ++ toString (recId task) ++ " - " ++ t) :: ls)

/-- The story loop: resolve the story's project and epic by name (exit 2 on
the first failure), upsert the story (or dry-print), then create its
tasks. -/
def processStories (tok : Option String) (dry : Bool) (pmap emap : NameMap)
    (itr : Option Dict) :
    List StoryCfg → Store →
    Except Halt Unit × Store × List ApiCall × List String
  | [], st => (.ok (), st, [], [])
  | s :: rest, st =>
    match lookupName pmap s.project, lookupName emap s.epic with
    | some proj, some epic =>
      let payload := story_payload s proj epic itr
      if dry then
        match processTasks tok dry dictId0 s.external_id (s.tasks.getD []) 1 st with
        | (.error h, st1, cs1, ls1) =>
          (.error h, st1, cs1,
           ("[dry-run] upsert story: " ++ s.name ++ " (proj '" ++ s.project
              ++ "', epic '" ++ s.epic ++ "')") :: ls1)
        | (.ok _, st1, cs1, ls1) =>
          match processStories tok dry pmap emap itr rest st1 with
          | (r, st', cs, ls) =>
            (r, st', cs1 ++ cs,
             ("[dry-run] upsert story: " ++ s.name ++ " (proj '" ++ s.project
                ++ "', epic '" ++ s.epic ++ "')") :: (ls1 ++ ls))
      else
        match tok with
        | none => (.error .exit2, st, [], [])
        | some _ =>
          match upsert_story payload st.stories st.nextId with
          | (story, coll', nid', cs0) =>
            let st1 := { st with stories := coll', nextId := nid' }
            let line := "[ok] story: " ++ recName story ++ " id="
              ++ toString (recId story)
            match processTasks tok dry story s.external_id (s.tasks.getD []) 1 st1 with
            | (.error h, st2, cs1, ls1) =>
              (.error h, st2, cs0 ++ cs1, line :: ls1)
            | (.ok _, st2, cs1, ls1) =>
              match processStories tok dry pmap emap itr rest st2 with
              | (r, st', cs, ls) =>
                (r, st', cs0 ++ cs1 ++ cs, line :: (ls1 ++ ls))
    | _, _ => (.error .exit2, st, [], [])

/-- `bootstrap(cfg, dry_run)`: the five stages in order, threading the name
maps, the milestone id and the optional iteration record, and concatenating
the call trace and the printed lines. -/
def bootstrap (cfg : Config) (dry : Bool) (tok : Option String)
    (nowInTz : String → Int) (st : Store) :
    Except Halt Unit × Store × List ApiCall × List String :=
  match stageProjects tok dry (cfg.projects.getD []) [] st with
  | (.error h, st1, cs1, ls1) => (.error h, st1, cs1, ls1)
  | (.ok pmap, st1, cs1, ls1) =>
    match stageMilestone tok dry cfg st1 with
    | (.error h, st2, cs2, ls2) => (.error h, st2, cs1 ++ cs2, ls1 ++ ls2)
    | (.ok ms, st2, cs2, ls2) =>
      match stageEpics tok dry (recId ms) (cfg.epics.getD []) [] st2 with
      | (.error h, st3, cs3, ls3) =>
        (.error h, st3, cs1 ++ cs2 ++ cs3, ls1 ++ ls2 ++ ls3)
      | (.ok emap, st3, cs3, ls3) =>
        match stageIteration tok dry cfg nowInTz st3 with
        | (.error h, st4, cs4, ls4) =>
          (.error h, st4, cs1 ++ cs2 ++ cs3 ++ cs4, ls1 ++ ls2 ++ ls3 ++ ls4)
        | (.ok itr, st4, cs4, ls4) =>
          match processStories tok dry pmap emap itr (cfg.stories.getD []) st4 with
          | (r, st5, cs5, ls5) =>
            (r, st5, cs1 ++ cs2 ++ cs3 ++ cs4 ++ cs5,
             ls1 ++ ls2 ++ ls3 ++ ls4 ++ ls5)

/-! ## Derived observations used by the claims -/

/-- Total number of tasks configured across all stories. -/
def totalTasks (cfg : Config) : Nat :=
  ((cfg.stories.getD []).map (fun s => (s.tasks.getD []).length)).sum

/-- Is this call a task-creating `POST /tasks`? -/
def isTaskPost : ApiCall → Bool
  | .post path _ => path == "/tasks"
  | _ => false

/-- Is this call any request against the tasks collection (list, create or
update)?  The client has no task lookup/update path, so only `POST` should
ever appear. -/
def isTaskCall : ApiCall → Bool
  | .get path => path == "/tasks"
  | .post path _ => path == "/tasks"
  | .put path _ _ => path == "/tasks"

/-- Is this call a story write (create or update of a story)? -/
def isStoryWrite : ApiCall → Bool
  | .post path _ => path == "/stories"
  | .put path _ _ => path == "/stories"
  | _ => false

/-- Number of task-creating calls in a trace. -/
def countTaskPosts (cs : List ApiCall) : Nat := (cs.filter isTaskPost).length

/-- Number of story-writing calls in a trace. -/
def countStoryWrites (cs : List ApiCall) : Nat := (cs.filter isStoryWrite).length

/-- Does the story's project name match some configured project and its epic
name some configured epic?  This is exactly the condition under which the
name-map lookups in the story loop succeed. -/
def resolvableStory (cfg : Config) (s : StoryCfg) : Bool :=
  (cfg.projects.getD []).any (fun p => p.name == s.project) &&
  (cfg.epics.getD []).any (fun e => e.name == s.epic)

/-- A configuration on which `bootstrap` runs to completion: the milestone
block is present and every story's project and epic names resolve. -/
def validCfg (cfg : Config) : Bool :=
  cfg.milestone.isSome && (cfg.stories.getD []).all (resolvableStory cfg)

/-- Modelled from the spec: the `[dry-run]` lines §4.3 promises for one
story — one line for the story itself and one indented line per task. -/
def dryStoryLines (s : StoryCfg) : List String :=
  ("[dry-run] upsert story: " ++ s.name ++ " (proj '" ++ s.project
     ++ "', epic '" ++ s.epic ++ "')")
    :: (s.tasks.getD []).map (fun t => "[dry-run]   task: " ++ t)

/-- Modelled from the spec: the full sequence of `[dry-run]` lines a dry run
is promised to print — exactly one line per would-be project, milestone,
epic, iteration (when configured), story and task, in stage order, task
lines indented under their story. -/
def dryRunExpectedLines (cfg : Config) (nowInTz : String → Int) : List String :=
  ((cfg.projects.getD []).map
     (fun p => "[dry-run] upsert project: " ++ p.name ++ " (" ++ p.external_id ++ ")"))
  ++ (match cfg.milestone with
      | some m => ["[dry-run] upsert milestone: " ++ m.name]
      | none => [])
  ++ ((cfg.epics.getD []).map (fun e => "[dry-run] upsert epic: " ++ e.name))
  ++ (match cfg.iteration with
      | some it =>
        let w := iterationWindow it cfg nowInTz
        ["[dry-run] upsert iteration: " ++ it.name ++ " " ++ dateValStr w.1
           ++ ".." ++ dateValStr w.2]
      | none => [])
  ++ ((cfg.stories.getD []).map dryStoryLines).flatten

/-! ## Dry-run characterizations of the stages -/

/-- The `name_to_project` mapping a dry run builds: every configured name is
bound to the placeholder `{"id": 0}`. -/
def dryMapP (ps : List ProjectCfg) (acc : NameMap) : NameMap :=
  ps.foldl (fun m p => minsert m p.name dictId0) acc

/-- The `name_to_epic` mapping a dry run builds. -/
def dryMapE (es : List EpicCfg) (acc : NameMap) : NameMap :=
  es.foldl (fun m e => minsert m e.name dictId0) acc

/-! ## Concrete fixtures used by counterexamples and witnesses -/

/-- Fixture project configuration. -/
def pX : ProjectCfg := ⟨"Platform", some "core platform", "beeai:project:platform"⟩

/-- Fixture epic configuration. -/
def eX : EpicCfg := ⟨"Epic A", none, none, "beeai:epic:a"⟩

/-- Fixture milestone configuration. -/
def mX : MilestoneCfg := ⟨"MVP", none, none, "beeai:milestone:mvp"⟩

/-- Fixture iteration configuration with no explicit dates. -/
def itX : IterationCfg := ⟨"Sprint 1", none, none, "beeai:iter:1"⟩

/-- Fixture iteration configuration supplying only a start date. -/
def itHalf : IterationCfg := ⟨"Sprint 2", some "2025-01-06", none, "beeai:iter:2"⟩

/-- Fixture story whose project and epic names resolve, with two tasks. -/
def sGood : StoryCfg :=
  ⟨"Good story", none, none, "Platform", "Epic A", none, none, "story-1",
   some ["setup", "verify"]⟩

/-- Fixture story whose project name matches no configured project. -/
def sBad : StoryCfg :=
  ⟨"Bad story", none, none, "NoSuchProject", "Epic A", none, none, "story-2",
   some []⟩

/-- A fully valid fixture configuration. -/
def cfgMain : Config := ⟨none, some [pX], some mX, some [eX], some itX, some [sGood]⟩

/-- Fixture configuration whose second story is unresolvable. -/
def cfgC4 : Config := ⟨none, some [pX], some mX, some [eX], none, some [sGood, sBad]⟩

/-- Fixture configuration with no milestone block. -/
def cfgNoMs : Config := ⟨none, some [pX], none, some [eX], none, none⟩

/-- Fixture configuration with no milestone block but one configured epic. -/
def cfgC8 : Config := ⟨none, some [], none, some [eX], none, none⟩

/-- A fixed clock: in every timezone the current day is 16 — a Wednesday,
since day 0 is a Monday and 16 % 7 = 2. -/
def nowWed : String → Int := fun _ => 16

/-- Desired project state for the C1 counterexample. -/
def projDesiredNew : ProjectCfg :=
  ⟨"new name", some "new description", "beeai:project:platform"⟩

/-- A stale remote project record sharing the desired external id. -/
def projRemoteOld : Dict :=
  [("id", .n 7), ("name", .s "old name"), ("description", .s "old"),
   ("external_id", .s "beeai:project:platform")]

/-- A pre-existing remote project record matching `pX`. -/
def remP : Dict :=
  [("id", .n 11), ("name", .s "Platform prev"),
   ("external_id", .s "beeai:project:platform")]

/-- A pre-existing remote milestone record matching `mX`. -/
def remM : Dict :=
  [("id", .n 12), ("name", .s "MVP prev"),
   ("external_id", .s "beeai:milestone:mvp")]

/-- A pre-existing remote epic record matching `eX`. -/
def remE : Dict :=
  [("id", .n 13), ("name", .s "Epic prev"), ("external_id", .s "beeai:epic:a")]

/-- A pre-existing remote iteration record matching `itX`. -/
def remI : Dict :=
  [("id", .n 14), ("name", .s "It prev"), ("external_id", .s "beeai:iter:1")]

/-- A pre-existing remote story record matching `sGood`. -/
def remS : Dict :=
  [("id", .n 15), ("name", .s "Story prev"), ("external_id", .s "story-1")]

/-- An iteration payload with explicit dates, used to exercise
`upsert_iteration` directly. -/
def itPayloadC1 : Dict :=
  iteration_payload itX (.cfgDate "2025-01-06", .cfgDate "2025-01-12")

/-- A story payload assembled from fixtures, used to exercise
`upsert_story` directly. -/
def sPayloadC1 : Dict := story_payload sGood dictId0 dictId0 none

theorem stageProjects_dry (tok : Option String) (ps : List ProjectCfg) :
    ∀ (acc : NameMap) (st : Store),
      stageProjects tok true ps acc st
        = (.ok (dryMapP ps acc), st, [],
           ps.map (fun p =>
             "[dry-run] upsert project: " ++ p.name ++ " (" ++ p.external_id ++ ")")) := by
  induction ps with
  | nil => intro acc st; rfl
  | cons p rest ih =>
    intro acc st
    simp [stageProjects, dryMapP, ih]

theorem stageEpics_dry (tok : Option String) (milestone_id : Int) (es : List EpicCfg) :
    ∀ (acc : NameMap) (st : Store),
      stageEpics tok true milestone_id es acc st
        = (.ok (dryMapE es acc), st, [],
           es.map (fun e => "[dry-run] upsert epic: " ++ e.name)) := by
  induction es with
  | nil => intro acc st; rfl
  | cons e rest ih =>
    intro acc st
    simp [stageEpics, dryMapE, ih]

theorem processTasks_dry (tok : Option String) (story : Dict) (ext : String)
    (ts : List String) :
    ∀ (idx : Nat) (st : Store),
      processTasks tok true story ext ts idx st
        = (.ok (), st, [], ts.map (fun t => "[dry-run]   task: " ++ t)) := by
  induction ts with
  | nil => intro idx st; rfl
  | cons t rest ih =>
    intro idx st
    simp [processTasks, ih]

theorem lookup_minsert (m : NameMap) (k k' : String) (v : Dict) :
    lookupName (minsert m k v) k' = if k == k' then some v else lookupName m k' := by
  simp [lookupName, minsert, List.find?]
  rcases h : (k == k') with _ | _ <;> simp_all [BEq.comm]

theorem lookup_dryMapP (ps : List ProjectCfg) :
    ∀ (acc : NameMap) (name : String),
      (lookupName (dryMapP ps acc) name).isSome
        = (ps.any (fun p => p.name == name) || (lookupName acc name).isSome) := by
  induction ps with
  | nil => intro acc name; simp [dryMapP]
  | cons p rest ih =>
    intro acc name
    simp only [dryMapP, List.foldl_cons, List.any_cons]
    rw [show (rest.foldl (fun m q => minsert m q.name dictId0) (minsert acc p.name dictId0))
          = dryMapP rest (minsert acc p.name dictId0) from rfl, ih]
    rw [lookup_minsert]
    rcases h : (p.name == name) with _ | _ <;> simp [h]

theorem dryMapP_vals (ps : List ProjectCfg) :
    ∀ (acc : NameMap), (∀ kv ∈ acc, kv.2 = dictId0) →
      ∀ kv ∈ dryMapP ps acc, kv.2 = dictId0 := by
  induction ps with
  | nil => intro acc h; simpa [dryMapP] using h
  | cons p rest ih =>
    intro acc h
    simp only [dryMapP, List.foldl_cons]
    refine ih (minsert acc p.name dictId0) ?_
    intro kv hkv
    simp only [minsert, List.mem_cons] at hkv
    rcases hkv with h1 | h1
    · simp [h1]
    · exact h kv h1

theorem lookup_dryMapE (es : List EpicCfg) :
    ∀ (acc : NameMap) (name : String),
      (lookupName (dryMapE es acc) name).isSome
        = (es.any (fun e => e.name == name) || (lookupName acc name).isSome) := by
  induction es with
  | nil => intro acc name; simp [dryMapE]
  | cons e rest ih =>
    intro acc name
    simp only [dryMapE, List.foldl_cons, List.any_cons]
    rw [show (rest.foldl (fun m q => minsert m q.name dictId0) (minsert acc e.name dictId0))
          = dryMapE rest (minsert acc e.name dictId0) from rfl, ih]
    rw [lookup_minsert]
    rcases h : (e.name == name) with _ | _ <;> simp [h]

theorem dryMapE_vals (es : List EpicCfg) :
    ∀ (acc : NameMap), (∀ kv ∈ acc, kv.2 = dictId0) →
      ∀ kv ∈ dryMapE es acc, kv.2 = dictId0 := by
  induction es with
  | nil => intro acc h; simpa [dryMapE] using h
  | cons e rest ih =>
    intro acc h
    simp only [dryMapE, List.foldl_cons]
    refine ih (minsert acc e.name dictId0) ?_
    intro kv hkv
    simp only [minsert, List.mem_cons] at hkv
    rcases hkv with h1 | h1
    · simp [h1]
    · exact h kv h1

theorem processStories_dry_resolvable (tok : Option String) (pmap emap : NameMap)
    (itr : Option Dict) (ss : List StoryCfg) :
    ∀ (st : Store),
      (∀ s ∈ ss, (lookupName pmap s.project).isSome = true ∧
                 (lookupName emap s.epic).isSome = true) →
      processStories tok true pmap emap itr ss st
        = (.ok (), st, [], (ss.map dryStoryLines).flatten) := by
  induction ss with
  | nil => intro st _; rfl
  | cons s rest ih =>
    intro st hres
    obtain ⟨hp, he⟩ := hres s (List.mem_cons_self s rest)
    obtain ⟨proj, hproj⟩ := Option.isSome_iff_exists.mp hp
    obtain ⟨epic, hepic⟩ := Option.isSome_iff_exists.mp he
    have hrest : ∀ s' ∈ rest, (lookupName pmap s'.project).isSome = true ∧
        (lookupName emap s'.epic).isSome = true :=
      fun s' h' => hres s' (List.mem_cons_of_mem s h')
    simp [processStories, hproj, hepic, processTasks_dry, ih st hrest, dryStoryLines]

theorem bootstrap_dry_valid (cfg : Config) (tok : Option String)
    (nowF : String → Int) (st : Store) (h : validCfg cfg = true) :
    bootstrap cfg true tok nowF st
      = (.ok (), st, [], dryRunExpectedLines cfg nowF) := by
  have hms : cfg.milestone.isSome = true := by
    simp [validCfg, Bool.and_eq_true] at h
    exact h.1
  obtain ⟨m, hm⟩ := Option.isSome_iff_exists.mp hms
  have hall : ∀ s ∈ cfg.stories.getD [], resolvableStory cfg s = true := by
    simp [validCfg, Bool.and_eq_true, List.all_eq_true] at h
    exact h.2
  have hres : ∀ s ∈ cfg.stories.getD [],
      (lookupName (dryMapP (cfg.projects.getD []) []) s.project).isSome = true ∧
      (lookupName (dryMapE (cfg.epics.getD []) []) s.epic).isSome = true := by
    intro s hs
    have := hall s hs
    simp [resolvableStory, Bool.and_eq_true] at this
    constructor
    · rw [lookup_dryMapP]
      simp [lookupName, this.1]
    · rw [lookup_dryMapE]
      simp [lookupName, this.2]
  cases hit : cfg.iteration with
  | none =>
    simp [bootstrap, stageProjects_dry, stageMilestone, hm, stageEpics_dry,
      stageIteration, hit, processStories_dry_resolvable tok _ _ _ _ st hres,
      dryRunExpectedLines]
  | some it =>
    simp [bootstrap, stageProjects_dry, stageMilestone, hm, stageEpics_dry,
      stageIteration, hit, processStories_dry_resolvable tok _ _ _ _ st hres,
      dryRunExpectedLines]

theorem processStories_dry_token (tok tok' : Option String) (pmap emap : NameMap)
    (itr : Option Dict) (ss : List StoryCfg) :
    ∀ (st : Store),
      processStories tok true pmap emap itr ss st
        = processStories tok' true pmap emap itr ss st := by
  induction ss with
  | nil => intro st; rfl
  | cons s rest ih =>
    intro st
    simp only [processStories]
    cases lookupName pmap s.project with
    | none => rfl
    | some proj =>
      cases lookupName emap s.epic with
      | none => rfl
      | some epic =>
        simp [processTasks_dry, ih st]

theorem bootstrap_dry_token (cfg : Config) (tok tok' : Option String)
    (nowF : String → Int) (st : Store) :
    bootstrap cfg true tok nowF st = bootstrap cfg true tok' nowF st := by
  cases hm : cfg.milestone with
  | none =>
    simp [bootstrap, stageProjects_dry, stageMilestone, hm]
  | some m =>
    cases hit : cfg.iteration with
    | none =>
      simp [bootstrap, stageProjects_dry, stageMilestone, hm, stageEpics_dry,
        stageIteration, hit,
        processStories_dry_token tok tok' (dryMapP (cfg.projects.getD []) [])
          (dryMapE (cfg.epics.getD []) []) none (cfg.stories.getD []) st]
    | some it =>
      simp [bootstrap, stageProjects_dry, stageMilestone, hm, stageEpics_dry,
        stageIteration, hit,
        processStories_dry_token tok tok' (dryMapP (cfg.projects.getD []) [])
          (dryMapE (cfg.epics.getD []) []) (some dictId0) (cfg.stories.getD []) st]

/-! ## Real-run characterizations of the stages -/

theorem upsert_project_calls (p : ProjectCfg) (coll : List Dict) (nid : Nat) :
    ∀ c ∈ (upsert_project p coll nid).2.2.2,
      isTaskCall c = false ∧ isStoryWrite c = false := by
  unfold upsert_project
  cases findByExternalId coll p.external_id <;>
    simp [isTaskCall, isStoryWrite]

theorem upsert_milestone_calls (m : MilestoneCfg) (coll : List Dict) (nid : Nat) :
    ∀ c ∈ (upsert_milestone m coll nid).2.2.2,
      isTaskCall c = false ∧ isStoryWrite c = false := by
  unfold upsert_milestone
  cases findByExternalId coll m.external_id <;>
    simp [isTaskCall, isStoryWrite]

theorem upsert_epic_calls (e : EpicCfg) (mid : Int) (coll : List Dict) (nid : Nat) :
    ∀ c ∈ (upsert_epic e mid coll nid).2.2.2,
      isTaskCall c = false ∧ isStoryWrite c = false := by
  unfold upsert_epic
  cases findByExternalId coll e.external_id <;>
    simp [isTaskCall, isStoryWrite]

theorem upsert_iteration_calls (p0 : Dict) (coll : List Dict) (nid : Nat) :
    ∀ c ∈ (upsert_iteration p0 coll nid).2.2.2,
      isTaskCall c = false ∧ isStoryWrite c = false := by
  unfold upsert_iteration
  cases findByExternalId coll (recExt p0) <;>
    simp [isTaskCall, isStoryWrite]

theorem upsert_story_taskfree (p0 : Dict) (coll : List Dict) (nid : Nat) :
    ∀ c ∈ (upsert_story p0 coll nid).2.2.2, isTaskCall c = false := by
  unfold upsert_story
  cases findByExternalId coll (recExt p0) <;> simp [isTaskCall]

theorem upsert_story_writes (p0 : Dict) (coll : List Dict) (nid : Nat) :
    countStoryWrites (upsert_story p0 coll nid).2.2.2 = 1 := by
  unfold upsert_story
  cases findByExternalId coll (recExt p0) <;>
    simp [countStoryWrites, isStoryWrite]

theorem stageProjects_real (t : String) (ps : List ProjectCfg) :
    ∀ (acc : NameMap) (st : Store),
      ∃ m st' cs ls,
        stageProjects (some t) false ps acc st = (.ok m, st', cs, ls) ∧
        st'.tasks = st.tasks ∧ st'.stories = st.stories ∧
        (∀ c ∈ cs, isTaskCall c = false ∧ isStoryWrite c = false) ∧
        (∀ name, (lookupName m name).isSome
          = (ps.any (fun p => p.name == name) || (lookupName acc name).isSome)) := by
  induction ps with
  | nil =>
    intro acc st
    exact ⟨acc, st, [], [], rfl, rfl, rfl, by simp, by simp⟩
  | cons p rest ih =>
    intro acc st
    rcases hu : upsert_project p st.projects st.nextId with ⟨proj, coll', nid', cs0⟩
    obtain ⟨m, st', cs, ls, heq, ht, hs, hcalls, hdom⟩ :=
      ih (minsert acc p.name proj) { st with projects := coll', nextId := nid' }
    refine ⟨m, st', cs0 ++ cs,
      ("[ok] project: " ++ recName proj ++ " id=" ++ toString (recId proj)) :: ls,
      ?_, ?_, ?_, ?_, ?_⟩
    · simp [stageProjects, hu, heq]
    · simpa using ht
    · simpa using hs
    · intro c hc
      rcases List.mem_append.mp hc with h1 | h1
      · have := upsert_project_calls p st.projects st.nextId c
        rw [hu] at this
        exact this h1
      · exact hcalls c h1
    · intro name
      rw [List.any_cons, hdom name, lookup_minsert]
      cases h : (p.name == name) <;> simp [h]

theorem stageEpics_real (t : String) (mid : Int) (es : List EpicCfg) :
    ∀ (acc : NameMap) (st : Store),
      ∃ m st' cs ls,
        stageEpics (some t) false mid es acc st = (.ok m, st', cs, ls) ∧
        st'.tasks = st.tasks ∧ st'.stories = st.stories ∧
        (∀ c ∈ cs, isTaskCall c = false ∧ isStoryWrite c = false) ∧
        (∀ name, (lookupName m name).isSome
          = (es.any (fun e => e.name == name) || (lookupName acc name).isSome)) := by
  induction es with
  | nil =>
    intro acc st
    exact ⟨acc, st, [], [], rfl, rfl, rfl, by simp, by simp⟩
  | cons e rest ih =>
    intro acc st
    rcases hu : upsert_epic e mid st.epics st.nextId with ⟨ep, coll', nid', cs0⟩
    obtain ⟨m, st', cs, ls, heq, ht, hs, hcalls, hdom⟩ :=
      ih (minsert acc e.name ep) { st with epics := coll', nextId := nid' }
    refine ⟨m, st', cs0 ++ cs,
      ("[ok] epic: " ++ recName ep ++ " id=" ++ toString (recId ep)) :: ls,
      ?_, ?_, ?_, ?_, ?_⟩
    · simp [stageEpics, hu, heq]
    · simpa using ht
    · simpa using hs
    · intro c hc
      rcases List.mem_append.mp hc with h1 | h1
      · have := upsert_epic_calls e mid st.epics st.nextId c
        rw [hu] at this
        exact this h1
      · exact hcalls c h1
    · intro name
      rw [List.any_cons, hdom name, lookup_minsert]
      cases h : (e.name == name) <;> simp [h]

theorem stageMilestone_real (t : String) (cfg : Config) (m : MilestoneCfg)
    (st : Store) (hm : cfg.milestone = some m) :
    ∃ ms st' cs ls,
      stageMilestone (some t) false cfg st = (.ok ms, st', cs, ls) ∧
      st'.tasks = st.tasks ∧ st'.stories = st.stories ∧
      (∀ c ∈ cs, isTaskCall c = false ∧ isStoryWrite c = false) := by
  rcases hu : upsert_milestone m st.milestones st.nextId with ⟨ms, coll', nid', cs0⟩
  refine ⟨ms, { st with milestones := coll', nextId := nid' }, cs0,
    ["[ok] milestone: " ++ recName ms ++ " id=" ++ toString (recId ms)], ?_, rfl, rfl, ?_⟩
  · simp [stageMilestone, hm, hu]
  · intro c hc
    have := upsert_milestone_calls m st.milestones st.nextId c
    rw [hu] at this
    exact this hc

theorem stageIteration_real (t : String) (cfg : Config) (nowF : String → Int)
    (st : Store) :
    ∃ itr st' cs ls,
      stageIteration (some t) false cfg nowF st = (.ok itr, st', cs, ls) ∧
      st'.tasks = st.tasks ∧ st'.stories = st.stories ∧
      (∀ c ∈ cs, isTaskCall c = false ∧ isStoryWrite c = false) := by
  cases hit : cfg.iteration with
  | none => exact ⟨none, st, [], [], by simp [stageIteration, hit], rfl, rfl, by simp⟩
  | some it =>
    rcases hu : upsert_iteration (iteration_payload it (iterationWindow it cfg nowF))
      st.iterations st.nextId with ⟨itr, coll', nid', cs0⟩
    refine ⟨some itr, { st with iterations := coll', nextId := nid' }, cs0,
      ["[ok] iteration: " ++ recName itr ++ " id=" ++ toString (recId itr)], ?_, rfl, rfl, ?_⟩
    · simp [stageIteration, hit, hu]
    · intro c hc
      have := upsert_iteration_calls (iteration_payload it (iterationWindow it cfg nowF))
        st.iterations st.nextId c
      rw [hu] at this
      exact this hc

theorem processTasks_real (t : String) (story : Dict) (ext : String)
    (ts : List String) :
    ∀ (idx : Nat) (st : Store),
      ∃ st' cs ls,
        processTasks (some t) false story ext ts idx st = (.ok (), st', cs, ls) ∧
        st'.tasks.length = st.tasks.length + ts.length ∧
        st'.stories = st.stories ∧
        st'.projects = st.projects ∧ st'.milestones = st.milestones ∧
        st'.epics = st.epics ∧ st'.iterations = st.iterations ∧
        (∀ c ∈ cs, isTaskPost c = true ∧ isStoryWrite c = false) ∧
        countTaskPosts cs = ts.length := by
  induction ts with
  | nil =>
    intro idx st
    exact ⟨st, [], [], rfl, by simp, rfl, rfl, rfl, rfl, rfl, by simp,
      by simp [countTaskPosts]⟩
  | cons tk rest ih =>
    intro idx st
    obtain ⟨st', cs, ls, heq, hlen, hs, hp, hmn, he, hi, hcalls, hcount⟩ :=
      ih (idx + 1)
        { st with tasks := st.tasks ++ [createdRec st.nextId
            (task_payload tk (recId story) ext idx)], nextId := st.nextId + 1 }
    refine ⟨st', .post "/tasks" (task_payload tk (recId story) ext idx) :: cs,
      ("[ok]   task id=" ++ toString (recId (createdRec st.nextId
          (task_payload tk (recId story) ext idx))) ++ " - " ++ tk) :: ls,
      ?_, ?_, ?_, ?_, ?_, ?_, ?_, ?_, ?_⟩
    · simp [processTasks, create_task, heq]
    · simp at hlen ⊢
      omega
    · simpa using hs
    · simpa using hp
    · simpa using hmn
    · simpa using he
    · simpa using hi
    · intro c hc
      rcases List.mem_cons.mp hc with h1 | h1
      · subst h1
        simp [isTaskPost, isStoryWrite]
      · exact hcalls c h1
    · simp [countTaskPosts, isTaskPost] at hcount ⊢
      omega

theorem isTaskPost_isTaskCall (c : ApiCall) (h : isTaskPost c = true) :
    isTaskCall c = true := by
  cases c with
  | get p => simp [isTaskPost] at h
  | post p payload => simpa [isTaskPost, isTaskCall] using h
  | put p rid payload => simp [isTaskPost] at h

theorem countTaskPosts_append (a b : List ApiCall) :
    countTaskPosts (a ++ b) = countTaskPosts a + countTaskPosts b := by
  simp [countTaskPosts, List.filter_append]

theorem countStoryWrites_append (a b : List ApiCall) :
    countStoryWrites (a ++ b) = countStoryWrites a + countStoryWrites b := by
  simp [countStoryWrites, List.filter_append]

theorem countTaskPosts_eq_zero (cs : List ApiCall)
    (h : ∀ c ∈ cs, isTaskPost c = false) : countTaskPosts cs = 0 := by
  simp only [countTaskPosts, List.length_eq_zero, List.filter_eq_nil_iff]
  intro c hc
  simp [h c hc]

theorem countStoryWrites_eq_zero (cs : List ApiCall)
    (h : ∀ c ∈ cs, isStoryWrite c = false) : countStoryWrites cs = 0 := by
  simp only [countStoryWrites, List.length_eq_zero, List.filter_eq_nil_iff]
  intro c hc
  simp [h c hc]

theorem processStories_real_ok (t : String) (pmap emap : NameMap)
    (itr : Option Dict) (ss : List StoryCfg) :
    ∀ (st : Store),
      (∀ s ∈ ss, (lookupName pmap s.project).isSome = true ∧
                 (lookupName emap s.epic).isSome = true) →
      ∃ st' cs ls,
        processStories (some t) false pmap emap itr ss st = (.ok (), st', cs, ls) ∧
        st'.tasks.length
          = st.tasks.length + (ss.map (fun s => (s.tasks.getD []).length)).sum ∧
        countTaskPosts cs = (ss.map (fun s => (s.tasks.getD []).length)).sum ∧
        countStoryWrites cs = ss.length ∧
        (∀ c ∈ cs, isTaskCall c = true → isTaskPost c = true) := by
  induction ss with
  | nil =>
    intro st _
    exact ⟨st, [], [], rfl, by simp, by simp [countTaskPosts],
      by simp [countStoryWrites], by simp⟩
  | cons s rest ih =>
    intro st hres
    obtain ⟨hp, he⟩ := hres s (List.mem_cons_self s rest)
    obtain ⟨proj, hproj⟩ := Option.isSome_iff_exists.mp hp
    obtain ⟨epic, hepic⟩ := Option.isSome_iff_exists.mp he
    rcases hu : upsert_story (story_payload s proj epic itr) st.stories st.nextId
      with ⟨story, coll', nid', cs0⟩
    obtain ⟨st2, cs1, ls1, heq1, hlen1, hs1, hp1, hm1, he1, hi1, hcalls1, hcount1⟩ :=
      processTasks_real t story s.external_id (s.tasks.getD []) 1
        { st with stories := coll', nextId := nid' }
    obtain ⟨st', cs, ls, heq, hlen, hcount, hwrites, hcalls⟩ :=
      ih st2 (fun s' h' => hres s' (List.mem_cons_of_mem s h'))
    refine ⟨st', cs0 ++ cs1 ++ cs,
      ("[ok] story: " ++ recName story ++ " id=" ++ toString (recId story))
        :: (ls1 ++ ls), ?_, ?_, ?_, ?_, ?_⟩
    · simp [processStories, hproj, hepic, hu, heq1, heq]
    · simp at hlen1
      simp only [hlen, hlen1, List.map_cons, List.sum_cons]
      omega
    · rw [countTaskPosts_append, countTaskPosts_append, hcount, hcount1]
      have h0 : countTaskPosts cs0 = 0 := by
        apply countTaskPosts_eq_zero
        intro c hc
        have := upsert_story_taskfree (story_payload s proj epic itr) st.stories st.nextId c
        rw [hu] at this
        have h2 := this hc
        cases h3 : isTaskPost c with
        | false => rfl
        | true => rw [isTaskPost_isTaskCall c h3] at h2; exact absurd h2 (by simp)
      simp [h0]
    · rw [countStoryWrites_append, countStoryWrites_append, hwrites]
      have h0 : countStoryWrites cs0 = 1 := by
        have := upsert_story_writes (story_payload s proj epic itr) st.stories st.nextId
        rw [hu] at this
        exact this
      have h1 : countStoryWrites cs1 = 0 :=
        countStoryWrites_eq_zero cs1 (fun c hc => (hcalls1 c hc).2)
      simp [h0, h1]
      omega
    · intro c hc
      rcases List.mem_append.mp hc with h1 | h1
      · rcases List.mem_append.mp h1 with h2 | h2
        · intro htc
          have := upsert_story_taskfree (story_payload s proj epic itr) st.stories st.nextId c
          rw [hu] at this
          exact absurd htc (by simp [this h2])
        · intro _
          exact (hcalls1 c h2).1
      · exact hcalls c h1

theorem processStories_real_abort (t : String) (pmap emap : NameMap)
    (itr : Option Dict) (bad : StoryCfg) (post : List StoryCfg)
    (hbad : ((lookupName pmap bad.project).isSome ∧
             (lookupName emap bad.epic).isSome) → False) :
    ∀ (pre : List StoryCfg) (st : Store),
      (∀ s ∈ pre, (lookupName pmap s.project).isSome = true ∧
                  (lookupName emap s.epic).isSome = true) →
      ∃ st' cs ls,
        processStories (some t) false pmap emap itr (pre ++ bad :: post) st
          = (.error .exit2, st', cs, ls) ∧
        countStoryWrites cs = pre.length := by
  intro pre
  induction pre with
  | nil =>
    intro st _
    refine ⟨st, [], [], ?_, by simp [countStoryWrites]⟩
    cases hlp : lookupName pmap bad.project with
    | none => simp [processStories, hlp]
    | some proj =>
      cases hle : lookupName emap bad.epic with
      | none => simp [processStories, hlp, hle]
      | some epic =>
        exact absurd ⟨by simp [hlp], by simp [hle]⟩ hbad
  | cons s rest ih =>
    intro st hres
    obtain ⟨hp, he⟩ := hres s (List.mem_cons_self s rest)
    obtain ⟨proj, hproj⟩ := Option.isSome_iff_exists.mp hp
    obtain ⟨epic, hepic⟩ := Option.isSome_iff_exists.mp he
    rcases hu : upsert_story (story_payload s proj epic itr) st.stories st.nextId
      with ⟨story, coll', nid', cs0⟩
    obtain ⟨st2, cs1, ls1, heq1, hlen1, hs1, hp1, hm1, he1, hi1, hcalls1, hcount1⟩ :=
      processTasks_real t story s.external_id (s.tasks.getD []) 1
        { st with stories := coll', nextId := nid' }
    obtain ⟨st', cs, ls, heq, hwrites⟩ :=
      ih st2 (fun s' h' => hres s' (List.mem_cons_of_mem s h'))
    refine ⟨st', cs0 ++ cs1 ++ cs,
      ("[ok] story: " ++ recName story ++ " id=" ++ toString (recId story))
        :: (ls1 ++ ls), ?_, ?_⟩
    · simp [processStories, hproj, hepic, hu, heq1, heq]
    · rw [countStoryWrites_append, countStoryWrites_append, hwrites]
      have h0 : countStoryWrites cs0 = 1 := by
        have := upsert_story_writes (story_payload s proj epic itr) st.stories st.nextId
        rw [hu] at this
        exact this
      have h1 : countStoryWrites cs1 = 0 :=
        countStoryWrites_eq_zero cs1 (fun c hc => (hcalls1 c hc).2)
      simp [h0, h1]
      omega

theorem lookupName_nil (name : String) : lookupName [] name = none := rfl

theorem taskfree_no_posts (cs : List ApiCall)
    (h : ∀ c ∈ cs, isTaskCall c = false ∧ isStoryWrite c = false) :
    countTaskPosts cs = 0 ∧ countStoryWrites cs = 0 := by
  constructor
  · apply countTaskPosts_eq_zero
    intro c hc
    cases h3 : isTaskPost c with
    | false => rfl
    | true =>
      have h4 := isTaskPost_isTaskCall c h3
      rw [(h c hc).1] at h4
      cases h4
  · exact countStoryWrites_eq_zero cs (fun c hc => (h c hc).2)

theorem bootstrap_real_ok (cfg : Config) (t : String) (nowF : String → Int)
    (st : Store) (h : validCfg cfg = true) :
    ∃ st' cs ls,
      bootstrap cfg false (some t) nowF st = (.ok (), st', cs, ls) ∧
      st'.tasks.length = st.tasks.length + totalTasks cfg ∧
      countTaskPosts cs = totalTasks cfg ∧
      (∀ c ∈ cs, isTaskCall c = true → isTaskPost c = true) ∧
      countStoryWrites cs = (cfg.stories.getD []).length := by
  have hms : cfg.milestone.isSome = true := by
    simp [validCfg, Bool.and_eq_true] at h
    exact h.1
  obtain ⟨m, hm⟩ := Option.isSome_iff_exists.mp hms
  have hall : ∀ s ∈ cfg.stories.getD [], resolvableStory cfg s = true := by
    simp [validCfg, Bool.and_eq_true, List.all_eq_true] at h
    exact h.2
  obtain ⟨pmap, st1, cs1, ls1, heq1, ht1, hs1, hcall1, hdom1⟩ :=
    stageProjects_real t (cfg.projects.getD []) [] st
  obtain ⟨ms, st2, cs2, ls2, heq2, ht2, hs2, hcall2⟩ :=
    stageMilestone_real t cfg m st1 hm
  obtain ⟨emap, st3, cs3, ls3, heq3, ht3, hs3, hcall3, hdom3⟩ :=
    stageEpics_real t (recId ms) (cfg.epics.getD []) [] st2
  obtain ⟨itr, st4, cs4, ls4, heq4, ht4, hs4, hcall4⟩ :=
    stageIteration_real t cfg nowF st3
  have hres : ∀ s ∈ cfg.stories.getD [],
      (lookupName pmap s.project).isSome = true ∧
      (lookupName emap s.epic).isSome = true := by
    intro s hs
    have hr := hall s hs
    simp [resolvableStory, Bool.and_eq_true] at hr
    constructor
    · rw [hdom1 s.project]
      simp [lookupName_nil, hr.1]
    · rw [hdom3 s.epic]
      simp [lookupName_nil, hr.2]
  obtain ⟨st5, cs5, ls5, heq5, hlen5, hcount5, hwrites5, hcalls5⟩ :=
    processStories_real_ok t pmap emap itr (cfg.stories.getD []) st4 hres
  refine ⟨st5, cs1 ++ cs2 ++ cs3 ++ cs4 ++ cs5, ls1 ++ ls2 ++ ls3 ++ ls4 ++ ls5,
    ?_, ?_, ?_, ?_, ?_⟩
  · simp [bootstrap, heq1, heq2, heq3, heq4, heq5]
  · rw [hlen5, ht4, ht3, ht2, ht1]
    rfl
  · obtain ⟨hz1, _⟩ := taskfree_no_posts cs1 hcall1
    obtain ⟨hz2, _⟩ := taskfree_no_posts cs2 hcall2
    obtain ⟨hz3, _⟩ := taskfree_no_posts cs3 hcall3
    obtain ⟨hz4, _⟩ := taskfree_no_posts cs4 hcall4
    simp [countTaskPosts_append, hz1, hz2, hz3, hz4, hcount5, totalTasks]
  · intro c hc
    simp only [List.append_assoc, List.mem_append] at hc
    rcases hc with h1 | h1 | h1 | h1 | h1
    · intro htc; rw [(hcall1 c h1).1] at htc; cases htc
    · intro htc; rw [(hcall2 c h1).1] at htc; cases htc
    · intro htc; rw [(hcall3 c h1).1] at htc; cases htc
    · intro htc; rw [(hcall4 c h1).1] at htc; cases htc
    · exact hcalls5 c h1
  · obtain ⟨_, hw1⟩ := taskfree_no_posts cs1 hcall1
    obtain ⟨_, hw2⟩ := taskfree_no_posts cs2 hcall2
    obtain ⟨_, hw3⟩ := taskfree_no_posts cs3 hcall3
    obtain ⟨_, hw4⟩ := taskfree_no_posts cs4 hcall4
    simp [countStoryWrites_append, hw1, hw2, hw3, hw4, hwrites5]

theorem bootstrap_real_abort (cfg : Config) (t : String) (nowF : String → Int)
    (st : Store) (m : MilestoneCfg) (hm : cfg.milestone = some m)
    (pre : List StoryCfg) (bad : StoryCfg) (post : List StoryCfg)
    (hsplit : cfg.stories.getD [] = pre ++ bad :: post)
    (hpre : ∀ s ∈ pre, resolvableStory cfg s = true)
    (hbad : resolvableStory cfg bad = false) :
    ∃ st' cs ls,
      bootstrap cfg false (some t) nowF st = (.error .exit2, st', cs, ls) ∧
      countStoryWrites cs = pre.length := by
  obtain ⟨pmap, st1, cs1, ls1, heq1, ht1, hs1, hcall1, hdom1⟩ :=
    stageProjects_real t (cfg.projects.getD []) [] st
  obtain ⟨ms, st2, cs2, ls2, heq2, ht2, hs2, hcall2⟩ :=
    stageMilestone_real t cfg m st1 hm
  obtain ⟨emap, st3, cs3, ls3, heq3, ht3, hs3, hcall3, hdom3⟩ :=
    stageEpics_real t (recId ms) (cfg.epics.getD []) [] st2
  obtain ⟨itr, st4, cs4, ls4, heq4, ht4, hs4, hcall4⟩ :=
    stageIteration_real t cfg nowF st3
  have hpre' : ∀ s ∈ pre, (lookupName pmap s.project).isSome = true ∧
      (lookupName emap s.epic).isSome = true := by
    intro s hs
    have hr := hpre s hs
    simp [resolvableStory, Bool.and_eq_true] at hr
    constructor
    · rw [hdom1 s.project]; simp [lookupName_nil, hr.1]
    · rw [hdom3 s.epic]; simp [lookupName_nil, hr.2]
  have hbad' : ((lookupName pmap bad.project).isSome ∧
      (lookupName emap bad.epic).isSome) → False := by
    intro ⟨hp', he'⟩
    rw [hdom1 bad.project] at hp'
    rw [hdom3 bad.epic] at he'
    simp only [lookupName_nil, Option.isSome_none, Bool.or_false] at hp' he'
    simp only [resolvableStory, hp', he', Bool.and_self] at hbad
    cases hbad
  obtain ⟨st5, cs5, ls5, heq5, hwrites5⟩ :=
    processStories_real_abort t pmap emap itr bad post hbad' pre st4 hpre'
  rw [← hsplit] at heq5
  refine ⟨st5, cs1 ++ cs2 ++ cs3 ++ cs4 ++ cs5, ls1 ++ ls2 ++ ls3 ++ ls4 ++ ls5,
    ?_, ?_⟩
  · simp [bootstrap, heq1, heq2, heq3, heq4, heq5]
  · obtain ⟨_, hw1⟩ := taskfree_no_posts cs1 hcall1
    obtain ⟨_, hw2⟩ := taskfree_no_posts cs2 hcall2
    obtain ⟨_, hw3⟩ := taskfree_no_posts cs3 hcall3
    obtain ⟨_, hw4⟩ := taskfree_no_posts cs4 hcall4
    simp [countStoryWrites_append, hw1, hw2, hw3, hw4, hwrites5]

/-! ## Claims -/

theorem reqAux_attempts_pos (resps : Nat → Nat) (a n : Nat) :
    1 ≤ (reqAux resps a (n + 1)).attempts := by
  cases n with
  | zero =>
    unfold reqAux
    cases h : retryableStatus (resps a) <;> simp [h]
  | succ k =>
    unfold reqAux
    cases h : retryableStatus (resps a) <;> simp [h]

theorem reqAux_succ_retry (resps : Nat → Nat) (a n : Nat)
    (h : retryableStatus (resps a) = true) :
    reqAux resps a (n + 2)
      = { attempts := (reqAux resps (a + 1) (n + 1)).attempts + 1,
          status := (reqAux resps (a + 1) (n + 1)).status,
          sleeps := backoff a :: (reqAux resps (a + 1) (n + 1)).sleeps } := by
  conv_lhs => rw [reqAux]
  simp [h]

/-- C5: a status in {429, 500, 502, 503, 504} triggers retries, up to 5
attempts total, sleeping `min(2^(attempt-1) * 0.5, 8)` seconds; any other
status is returned immediately after a single attempt; the sequence
[503, 503, 200] yields exactly 3 attempts returning the third response, and
five consecutive 500s yield 5 attempts with the fifth response returned. -/
theorem C5_retry_policy :
    (∀ resps : Nat → Nat, retryableStatus (resps 1) = false →
      reqModel resps = { attempts := 1, status := resps 1, sleeps := [] }) ∧
    (∀ resps : Nat → Nat, retryableStatus (resps 1) = true →
      2 ≤ (reqModel resps).attempts ∧
      (reqModel resps).sleeps.head? = some (backoff 1)) ∧
    reqModel (fun i => if i ≤ 2 then 503 else 200)
      = { attempts := 3, status := 200, sleeps := [1/2, 1] } ∧
    reqModel (fun _ => 500)
      = { attempts := 5, status := 500, sleeps := [1/2, 1, 2, 4, 8] } ∧
    backoff 1 = 1/2 ∧ backoff 2 = 1 ∧ backoff 3 = 2 ∧ backoff 4 = 4 ∧
    backoff 5 = 8 ∧ backoff 6 = 8 := by
  refine ⟨?_, ?_, ?_, ?_, ?_, ?_, ?_, ?_, ?_, ?_⟩
  · intro resps h
    simp [reqModel, reqAux, h]
  · intro resps h
    have hstep := reqAux_succ_retry resps 1 3 h
    have h2 : 1 ≤ (reqAux resps 2 4).attempts := reqAux_attempts_pos resps 2 3
    norm_num at hstep
    constructor
    · show 2 ≤ (reqAux resps 1 5).attempts
      rw [hstep]
      simp only [ReqResult.mk.injEq]
      omega
    · show (reqAux resps 1 5).sleeps.head? = some (backoff 1)
      rw [hstep]
      rfl
  · norm_num [reqModel, reqAux, retryableStatus, backoff, min_def]
  · norm_num [reqModel, reqAux, retryableStatus, backoff, min_def]
  · norm_num [backoff, min_def]
  · norm_num [backoff, min_def]
  · norm_num [backoff, min_def]
  · norm_num [backoff, min_def]
  · norm_num [backoff, min_def]
  · norm_num [backoff, min_def]

/-- C5 witness: a 404 is returned immediately after one attempt, and a
retryable 429 leads to at least a second attempt after a 0.5 s sleep. -/
theorem C5_retry_policy_witness :
    reqModel (fun _ => 404) = { attempts := 1, status := 404, sleeps := [] } ∧
    (2 ≤ (reqModel (fun _ => 429)).attempts ∧
     (reqModel (fun _ => 429)).sleeps.head? = some (backoff 1)) :=
  ⟨C5_retry_policy.1 (fun _ => 404) (by decide),
   C5_retry_policy.2.1 (fun _ => 429) (by decide)⟩

theorem processTasks_call_at (t : String) (story : Dict) (ext : String)
    (ts : List String) :
    ∀ (idx k : Nat) (st : Store) (h : k < ts.length),
      (processTasks (some t) false story ext ts idx st).2.2.1.get? k
        = some (.post "/tasks"
            (task_payload (ts.get ⟨k, h⟩) (recId story) ext (idx + k))) := by
  induction ts with
  | nil =>
    intro idx k st h
    cases h
  | cons tk rest ih =>
    intro idx k st h
    cases k with
    | zero =>
      simp [processTasks, create_task]
    | succ k' =>
      have h' : k' < rest.length := by
        rw [List.length_cons] at h
        omega
      have := ih (idx + 1) k'
        { st with tasks := st.tasks ++ [createdRec st.nextId
            (task_payload tk (recId story) ext idx)], nextId := st.nextId + 1 } h'
      simp [processTasks, create_task]
      rw [show idx + (k' + 1) = (idx + 1) + k' from by omega]
      simpa using this

/-- C6: within a story's task loop, the task at 0-based position k is
created with external id `beeai:task:{story_external_id}:{k+1}` — the
1-based position — and in particular the 2nd task of story `story-1`
gets `beeai:task:story-1:2`. -/
theorem C6_task_external_ids :
    (∀ (t : String) (story : Dict) (ext : String) (ts : List String)
       (k : Nat) (st : Store) (h : k < ts.length),
      (processTasks (some t) false story ext ts 1 st).2.2.1.get? k
        = some (.post "/tasks"
            [("description", .s (ts.get ⟨k, h⟩)),
             ("story_id", .n (recId story)),
             ("external_id",
              .s ("beeai:task:" ++ ext ++ ":" ++ toString (1 + k)))])) ∧
    taskExternalId "story-1" 2 = "beeai:task:story-1:2" := by
  constructor
  · intro t story ext ts k st h
    have := processTasks_call_at t story ext ts 1 k st h
    simpa [task_payload, taskExternalId] using this
  · rfl

/-- C6 witness: the 2nd task ("verify") of fixture story `story-1` is
created with external id `beeai:task:story-1:2`. -/
theorem C6_task_external_ids_witness :
    (processTasks (some "tk") false dictId0 "story-1" ["setup", "verify"] 1
        Store.empty).2.2.1.get? 1
      = some (.post "/tasks"
          [("description", .s "verify"),
           ("story_id", .n (recId dictId0)),
           ("external_id", .s ("beeai:task:" ++ "story-1" ++ ":" ++ toString (1 + 1)))]) :=
  C6_task_external_ids.1 "tk" dictId0 "story-1" ["setup", "verify"] 1
    Store.empty (by decide)

/-- C7: when the configured iteration lacks explicit dates the window is
recomputed: the start is the Monday of the current ISO week (a multiple of 7
in the day model, at most `now`, less than 7 days before it) and the end is
start + (iteration_length_days - 1); on a Wednesday (`now % 7 = 2`) with a
7-day length, start = now - 2 and end = start + 6. -/
theorem C7_iso_week_window :
    (∀ (nowDay len : Int),
      (iso_week_dates nowDay len).1 % 7 = 0 ∧
      (iso_week_dates nowDay len).1 ≤ nowDay ∧
      nowDay < (iso_week_dates nowDay len).1 + 7 ∧
      (iso_week_dates nowDay len).2 = (iso_week_dates nowDay len).1 + (len - 1)) ∧
    (∀ nowDay : Int, pyWeekday nowDay = 2 →
      iso_week_dates nowDay 7 = (nowDay - 2, (nowDay - 2) + 6)) ∧
    (∀ (it : IterationCfg) (cfg : Config) (nowF : String → Int),
      (falsyStr it.start_date || falsyStr it.end_date) = true →
      iterationWindow it cfg nowF
        = (.computedDate (iso_week_dates (nowF (orgTimezone cfg)) (orgIterLen cfg)).1,
           .computedDate (iso_week_dates (nowF (orgTimezone cfg)) (orgIterLen cfg)).2)) := by
  refine ⟨?_, ?_, ?_⟩
  · intro nowDay len
    have h1 : 0 ≤ nowDay % 7 := Int.emod_nonneg nowDay (by norm_num)
    have h2 : nowDay % 7 < 7 := Int.emod_lt_of_pos nowDay (by norm_num)
    have h3 : (nowDay - nowDay % 7) % 7 = 0 := by
      rw [Int.sub_emod, Int.emod_emod_of_dvd nowDay (dvd_refl 7), sub_self,
        Int.zero_emod]
    refine ⟨?_, ?_, ?_, ?_⟩
    · simpa [iso_week_dates, pyWeekday] using h3
    · simp [iso_week_dates, pyWeekday]
      omega
    · simp [iso_week_dates, pyWeekday]
      omega
    · simp [iso_week_dates, pyWeekday]
  · intro nowDay h
    simp only [iso_week_dates, pyWeekday] at *
    rw [h]
    norm_num
  · intro it cfg nowF h
    simp [iterationWindow, h]

/-- C7 witness: on day 16 (a Wednesday) with a 7-day iteration the window
is days 14..20, and the fixture iteration without dates gets exactly that
computed window. -/
theorem C7_iso_week_window_witness :
    iso_week_dates 16 7 = (16 - 2, (16 - 2) + 6) ∧
    iterationWindow itX cfgMain nowWed
      = (.computedDate (iso_week_dates (nowWed (orgTimezone cfgMain)) (orgIterLen cfgMain)).1,
         .computedDate (iso_week_dates (nowWed (orgTimezone cfgMain)) (orgIterLen cfgMain)).2) :=
  ⟨C7_iso_week_window.2.1 16 (by decide),
   C7_iso_week_window.2.2 itX cfgMain nowWed (by decide)⟩

/-- C10: if either configured iteration date is falsy (absent or empty),
both dates are recomputed from the current ISO week — the supplied one is
discarded — and in general the window never mixes a configured date with a
computed one. -/
theorem C10_no_mixed_dates :
    (∀ (it : IterationCfg) (cfg : Config) (nowF : String → Int),
      (falsyStr it.start_date || falsyStr it.end_date) = true →
      iterationWindow it cfg nowF
        = (.computedDate (iso_week_dates (nowF (orgTimezone cfg)) (orgIterLen cfg)).1,
           .computedDate (iso_week_dates (nowF (orgTimezone cfg)) (orgIterLen cfg)).2)) ∧
    (∀ (it : IterationCfg) (cfg : Config) (nowF : String → Int),
      (∃ a b, iterationWindow it cfg nowF = (.cfgDate a, .cfgDate b)) ∨
      (∃ a b, iterationWindow it cfg nowF = (.computedDate a, .computedDate b))) := by
  constructor
  · intro it cfg nowF h
    simp [iterationWindow, h]
  · intro it cfg nowF
    by_cases h : (falsyStr it.start_date || falsyStr it.end_date) = true
    · right
      refine ⟨(iso_week_dates (nowF (orgTimezone cfg)) (orgIterLen cfg)).1,
        (iso_week_dates (nowF (orgTimezone cfg)) (orgIterLen cfg)).2, ?_⟩
      simp [iterationWindow, h]
    · left
      refine ⟨it.start_date.getD "", it.end_date.getD "", ?_⟩
      simp only [iterationWindow]
      rw [if_neg]
      simp [h]

/-- C10 witness: the fixture iteration that supplies only a start date has
that date discarded — both window dates are computed. -/
theorem C10_no_mixed_dates_witness :
    itHalf.start_date = some "2025-01-06" ∧
    iterationWindow itHalf cfgMain nowWed
      = (.computedDate (iso_week_dates (nowWed (orgTimezone cfgMain)) (orgIterLen cfgMain)).1,
         .computedDate (iso_week_dates (nowWed (orgTimezone cfgMain)) (orgIterLen cfgMain)).2) :=
  ⟨rfl, C10_no_mixed_dates.1 itHalf cfgMain nowWed (by decide)⟩

/-- C1 counterexample: `upsert_project` finds the stale remote record and
returns it unchanged — the only call issued is the list `GET`; no update is
sent and the desired name "new name" is not written (the result still
carries "old name"). -/
theorem C1_counterexample :
    upsert_project projDesiredNew [projRemoteOld] 10
      = (projRemoteOld, [projRemoteOld], 10, [.get "/projects"]) ∧
    recName projRemoteOld = "old name" ∧
    projDesiredNew.name = "new name" := by
  refine ⟨?_, rfl, rfl⟩
  rfl

/-- C1 amended: for milestone, epic, iteration and story, when the scan
finds a remote record with the desired external id, upsert issues a `PUT`
carrying the full desired payload (for iteration, the payload minus
falsy-valued fields) against the found record's numeric id and returns the
updated record; for project, upsert issues no update at all — it returns
the found record unchanged after the list `GET`. -/
theorem C1_upsert_found :
    (∀ (p : ProjectCfg) (coll : List Dict) (nid : Nat) (found : Dict),
      findByExternalId coll p.external_id = some found →
      upsert_project p coll nid = (found, coll, nid, [.get "/projects"])) ∧
    (∀ (m : MilestoneCfg) (coll : List Dict) (nid : Nat) (found : Dict),
      findByExternalId coll m.external_id = some found →
      upsert_milestone m coll nid
        = (updatedRec (recId found) (milestone_payload m),
           storeUpdate coll (recId found) (milestone_payload m), nid,
           [.get "/milestones",
            .put "/milestones" (recId found) (milestone_payload m)])) ∧
    (∀ (e : EpicCfg) (mid : Int) (coll : List Dict) (nid : Nat) (found : Dict),
      findByExternalId coll e.external_id = some found →
      upsert_epic e mid coll nid
        = (updatedRec (recId found) (epic_payload e mid),
           storeUpdate coll (recId found) (epic_payload e mid), nid,
           [.get "/epics", .put "/epics" (recId found) (epic_payload e mid)])) ∧
    (∀ (p0 : Dict) (coll : List Dict) (nid : Nat) (found : Dict),
      findByExternalId coll (recExt p0) = some found →
      upsert_iteration p0 coll nid
        = (updatedRec (recId found) (p0.filter (fun kv => jTruthy kv.2)),
           storeUpdate coll (recId found) (p0.filter (fun kv => jTruthy kv.2)), nid,
           [.get "/iterations",
            .put "/iterations" (recId found) (p0.filter (fun kv => jTruthy kv.2))])) ∧
    (∀ (p0 : Dict) (coll : List Dict) (nid : Nat) (found : Dict),
      findByExternalId coll (recExt p0) = some found →
      upsert_story p0 coll nid
        = (updatedRec (recId found) p0, storeUpdate coll (recId found) p0, nid,
           [.get "/stories", .put "/stories" (recId found) p0])) := by
  refine ⟨?_, ?_, ?_, ?_, ?_⟩
  · intro p coll nid found h
    simp [upsert_project, h]
  · intro m coll nid found h
    simp [upsert_milestone, h]
  · intro e mid coll nid found h
    simp [upsert_epic, h]
  · intro p0 coll nid found h
    simp [upsert_iteration, h]
  · intro p0 coll nid found h
    simp [upsert_story, h]

/-- C1 witness: concrete found-record updates for all five entity types. -/
theorem C1_upsert_found_witness :
    upsert_project pX [remP] 20 = (remP, [remP], 20, [.get "/projects"]) ∧
    upsert_milestone mX [remM] 20
      = (updatedRec (recId remM) (milestone_payload mX),
         storeUpdate [remM] (recId remM) (milestone_payload mX), 20,
         [.get "/milestones",
          .put "/milestones" (recId remM) (milestone_payload mX)]) ∧
    upsert_epic eX 12 [remE] 20
      = (updatedRec (recId remE) (epic_payload eX 12),
         storeUpdate [remE] (recId remE) (epic_payload eX 12), 20,
         [.get "/epics", .put "/epics" (recId remE) (epic_payload eX 12)]) ∧
    upsert_iteration itPayloadC1 [remI] 20
      = (updatedRec (recId remI) (itPayloadC1.filter (fun kv => jTruthy kv.2)),
         storeUpdate [remI] (recId remI) (itPayloadC1.filter (fun kv => jTruthy kv.2)), 20,
         [.get "/iterations",
          .put "/iterations" (recId remI) (itPayloadC1.filter (fun kv => jTruthy kv.2))]) ∧
    upsert_story sPayloadC1 [remS] 20
      = (updatedRec (recId remS) sPayloadC1,
         storeUpdate [remS] (recId remS) sPayloadC1, 20,
         [.get "/stories", .put "/stories" (recId remS) sPayloadC1]) :=
  ⟨C1_upsert_found.1 pX [remP] 20 remP (by decide),
   C1_upsert_found.2.1 mX [remM] 20 remM (by decide),
   C1_upsert_found.2.2.1 eX 12 [remE] 20 remE (by decide),
   C1_upsert_found.2.2.2.1 itPayloadC1 [remI] 20 remI (by decide),
   C1_upsert_found.2.2.2.2 sPayloadC1 [remS] 20 remS (by decide)⟩

/-- C3 counterexample: with a token set, a configuration without a
`milestone` block makes `bootstrap` die on the uncaught `KeyError` raised by
`cfg["milestone"]` — process exit code 1, not 2. -/
theorem C3_counterexample :
    (bootstrap cfgNoMs false (some "tk") nowWed Store.empty).1
      = .error (.keyError "milestone") ∧
    exitCode (bootstrap cfgNoMs false (some "tk") nowWed Store.empty).1 = 1 ∧
    exitCode (bootstrap cfgNoMs false (some "tk") nowWed Store.empty).1 ≠ 2 := by
  refine ⟨rfl, rfl, by decide⟩

/-- C3 amended: if the configuration has no milestone block, then any run
that reaches the milestone stage (dry-run, or a real run with the token
set) terminates with the uncaught `KeyError "milestone"`, i.e. process exit
code 1 — not `sys.exit(2)`. -/
theorem C3_missing_milestone_uncaught (cfg : Config) (dry : Bool)
    (tok : Option String) (nowF : String → Int) (st : Store)
    (hms : cfg.milestone = none)
    (hrun : dry = true ∨ ∃ t, tok = some t) :
    (bootstrap cfg dry tok nowF st).1 = .error (.keyError "milestone") ∧
    exitCode (bootstrap cfg dry tok nowF st).1 = 1 := by
  have hmain : (bootstrap cfg dry tok nowF st).1 = .error (.keyError "milestone") := by
    rcases hrun with hdry | ⟨t, htok⟩
    · subst hdry
      simp [bootstrap, stageProjects_dry, stageMilestone, hms]
    · subst htok
      cases hd : dry with
      | true => simp [bootstrap, stageProjects_dry, stageMilestone, hms]
      | false =>
        obtain ⟨pmap, st1, cs1, ls1, heq1, _, _, _, _⟩ :=
          stageProjects_real t (cfg.projects.getD []) [] st
        simp [bootstrap, heq1, stageMilestone, hms]
  exact ⟨hmain, by rw [hmain]; rfl⟩

/-- C3 amended witness: the concrete milestone-less configuration crashes
with the `KeyError` in dry-run mode as well. -/
theorem C3_missing_milestone_uncaught_witness :
    (bootstrap cfgNoMs true none nowWed Store.empty).1
      = .error (.keyError "milestone") ∧
    exitCode (bootstrap cfgNoMs true none nowWed Store.empty).1 = 1 :=
  C3_missing_milestone_uncaught cfgNoMs true none nowWed Store.empty rfl
    (Or.inl rfl)

/-- C2: on a valid configuration a real `bootstrap` run creates one task
per configured task (`POST /tasks` only — the trace contains no task list
or update call), so a second run with the same configuration doubles the
number of remote tasks. -/
theorem C2_tasks_never_upserted (cfg : Config) (t : String)
    (nowF : String → Int) (st : Store) (h : validCfg cfg = true)
    (h0 : st.tasks = []) :
    ∃ st1 cs1 ls1,
      bootstrap cfg false (some t) nowF st = (.ok (), st1, cs1, ls1) ∧
      countTaskPosts cs1 = totalTasks cfg ∧
      (∀ c ∈ cs1, isTaskCall c = true → isTaskPost c = true) ∧
      st1.tasks.length = totalTasks cfg ∧
      ∃ st2 cs2 ls2,
        bootstrap cfg false (some t) nowF st1 = (.ok (), st2, cs2, ls2) ∧
        countTaskPosts cs2 = totalTasks cfg ∧
        st2.tasks.length = 2 * totalTasks cfg := by
  obtain ⟨st1, cs1, ls1, heq1, hlen1, hcnt1, honly1, _⟩ :=
    bootstrap_real_ok cfg t nowF st h
  obtain ⟨st2, cs2, ls2, heq2, hlen2, hcnt2, _, _⟩ :=
    bootstrap_real_ok cfg t nowF st1 h
  refine ⟨st1, cs1, ls1, heq1, hcnt1, honly1, ?_, st2, cs2, ls2, heq2, hcnt2, ?_⟩
  · rw [hlen1, h0]
    simp
  · rw [hlen2, hlen1, h0]
    simp
    omega

/-- C2 witness: on the fixture configuration (one story, two tasks) the
first run creates 2 tasks and the second run brings the store to 4. -/
theorem C2_tasks_never_upserted_witness :
    ∃ st1 cs1 ls1,
      bootstrap cfgMain false (some "tk") nowWed Store.empty = (.ok (), st1, cs1, ls1) ∧
      countTaskPosts cs1 = totalTasks cfgMain ∧
      (∀ c ∈ cs1, isTaskCall c = true → isTaskPost c = true) ∧
      st1.tasks.length = totalTasks cfgMain ∧
      ∃ st2 cs2 ls2,
        bootstrap cfgMain false (some "tk") nowWed st1 = (.ok (), st2, cs2, ls2) ∧
        countTaskPosts cs2 = totalTasks cfgMain ∧
        st2.tasks.length = 2 * totalTasks cfgMain :=
  C2_tasks_never_upserted cfgMain "tk" nowWed Store.empty (by decide) rfl

/-- C4 counterexample: in `cfgC4` the second story is unresolvable, yet the
run issues one story write (the first story is upserted) before aborting
with exit 2 — contradicting "no story create/update call is issued prior to
the abort". -/
theorem C4_counterexample :
    (bootstrap cfgC4 false (some "tk") nowWed Store.empty).1 = .error .exit2 ∧
    countStoryWrites (bootstrap cfgC4 false (some "tk") nowWed Store.empty).2.2.1 = 1 ∧
    resolvableStory cfgC4 sBad = false ∧
    (cfgC4.stories.getD []).length = 2 := by
  refine ⟨rfl, by decide, by decide, by decide⟩

/-- C4 amended: when the configured stories split into a resolvable prefix,
a first unresolvable story, and a remainder, the real run aborts with
`sys.exit(2)` upon reaching that story; exactly one story write was issued
per story of the prefix (those stories were already upserted), and none for
the unresolvable story or anything after it. -/
theorem C4_abort_at_first_unresolved (cfg : Config) (t : String)
    (nowF : String → Int) (st : Store) (m : MilestoneCfg)
    (hm : cfg.milestone = some m)
    (pre : List StoryCfg) (bad : StoryCfg) (post : List StoryCfg)
    (hsplit : cfg.stories.getD [] = pre ++ bad :: post)
    (hpre : ∀ s ∈ pre, resolvableStory cfg s = true)
    (hbad : resolvableStory cfg bad = false) :
    ∃ st' cs ls,
      bootstrap cfg false (some t) nowF st = (.error .exit2, st', cs, ls) ∧
      exitCode (bootstrap cfg false (some t) nowF st).1 = 2 ∧
      countStoryWrites cs = pre.length := by
  obtain ⟨st', cs, ls, heq, hw⟩ :=
    bootstrap_real_abort cfg t nowF st m hm pre bad post hsplit hpre hbad
  exact ⟨st', cs, ls, heq, by rw [heq]; rfl, hw⟩

/-- C4 amended witness: on `cfgC4` (resolvable `sGood`, then unresolvable
`sBad`) the run exits 2 after exactly one story write. -/
theorem C4_abort_at_first_unresolved_witness :
    ∃ st' cs ls,
      bootstrap cfgC4 false (some "tk") nowWed Store.empty
        = (.error .exit2, st', cs, ls) ∧
      exitCode (bootstrap cfgC4 false (some "tk") nowWed Store.empty).1 = 2 ∧
      countStoryWrites cs = [sGood].length :=
  C4_abort_at_first_unresolved cfgC4 "tk" nowWed Store.empty mX rfl
    [sGood] sBad [] rfl (by decide) (by decide)

theorem dryStoryLines_flatten_length (ss : List StoryCfg) :
    (ss.map (List.length ∘ dryStoryLines)).sum
      = ss.length + (ss.map (fun s => (s.tasks.getD []).length)).sum := by
  induction ss with
  | nil => simp
  | cons s rest ih =>
    simp [dryStoryLines, ih]
    omega

theorem dryRunExpectedLines_length (cfg : Config) (nowF : String → Int) :
    (dryRunExpectedLines cfg nowF).length
      = (cfg.projects.getD []).length
        + (match cfg.milestone with | some _ => 1 | none => 0)
        + (cfg.epics.getD []).length
        + (match cfg.iteration with | some _ => 1 | none => 0)
        + (cfg.stories.getD []).length + totalTasks cfg := by
  cases hm : cfg.milestone with
  | none =>
    cases hit : cfg.iteration with
    | none =>
      simp [dryRunExpectedLines, totalTasks, hm, hit, dryStoryLines_flatten_length]
      omega
    | some it =>
      simp [dryRunExpectedLines, totalTasks, hm, hit, dryStoryLines_flatten_length]
      omega
  | some m =>
    cases hit : cfg.iteration with
    | none =>
      simp [dryRunExpectedLines, totalTasks, hm, hit, dryStoryLines_flatten_length]
      omega
    | some it =>
      simp [dryRunExpectedLines, totalTasks, hm, hit, dryStoryLines_flatten_length]
      omega

theorem lookupName_val_mem (m : NameMap) (k : String) (rec : Dict)
    (h : lookupName m k = some rec) : ∃ kv ∈ m, kv.2 = rec := by
  simp only [lookupName, Option.map_eq_some'] at h
  obtain ⟨kv, hfind, hval⟩ := h
  exact ⟨kv, List.mem_of_find?_eq_some hfind, hval⟩

/-- C8 amended: on a configuration with a milestone block and fully
resolvable story references, a dry run issues zero HTTP calls, leaves the
remote store untouched, succeeds, and prints exactly the expected
`[dry-run]` lines — one per configured project, milestone, epic, iteration
(when configured), story and task (task lines indented under their story) —
while internally substituting the placeholder record `{"id": 0}` for every
entity.  (On a configuration without a milestone block the dry run instead
dies on the `KeyError`, so the per-entity lines are not all printed.) -/
theorem C8_dry_run_trace :
    (∀ (cfg : Config) (tok : Option String) (nowF : String → Int) (st : Store),
      validCfg cfg = true →
      bootstrap cfg true tok nowF st = (.ok (), st, [], dryRunExpectedLines cfg nowF)) ∧
    (∀ (cfg : Config) (nowF : String → Int),
      (dryRunExpectedLines cfg nowF).length
        = (cfg.projects.getD []).length
          + (match cfg.milestone with | some _ => 1 | none => 0)
          + (cfg.epics.getD []).length
          + (match cfg.iteration with | some _ => 1 | none => 0)
          + (cfg.stories.getD []).length + totalTasks cfg) ∧
    (∀ (ps : List ProjectCfg) (name : String) (rec : Dict),
      lookupName (dryMapP ps []) name = some rec → rec = dictId0) ∧
    (∀ (es : List EpicCfg) (name : String) (rec : Dict),
      lookupName (dryMapE es []) name = some rec → rec = dictId0) ∧
    (∀ (tok : Option String) (cfg : Config) (st : Store) (m : MilestoneCfg),
      cfg.milestone = some m →
      stageMilestone tok true cfg st
        = (.ok dictId0, st, [], ["[dry-run] upsert milestone: " ++ m.name])) ∧
    (∀ (tok : Option String) (cfg : Config) (nowF : String → Int) (st : Store)
       (it : IterationCfg),
      cfg.iteration = some it →
      stageIteration tok true cfg nowF st
        = (.ok (some dictId0), st, [],
           ["[dry-run] upsert iteration: " ++ it.name ++ " "
              ++ dateValStr (iterationWindow it cfg nowF).1 ++ ".."
              ++ dateValStr (iterationWindow it cfg nowF).2])) := by
  refine ⟨bootstrap_dry_valid, dryRunExpectedLines_length, ?_, ?_, ?_, ?_⟩
  · intro ps name rec h
    obtain ⟨kv, hmem, hval⟩ := lookupName_val_mem _ name rec h
    rw [← hval]
    exact dryMapP_vals ps [] (by simp) kv hmem
  · intro es name rec h
    obtain ⟨kv, hmem, hval⟩ := lookupName_val_mem _ name rec h
    rw [← hval]
    exact dryMapE_vals es [] (by simp) kv hmem
  · intro tok cfg st m hm
    simp [stageMilestone, hm]
  · intro tok cfg nowF st it hit
    simp [stageIteration, hit]

/-- C8 amended witness: on the valid fixture configuration the dry run
makes no calls and prints exactly the expected lines. -/
theorem C8_dry_run_trace_witness :
    bootstrap cfgMain true none nowWed Store.empty
      = (.ok (), Store.empty, [], dryRunExpectedLines cfgMain nowWed) :=
  C8_dry_run_trace.1 cfgMain none nowWed Store.empty (by decide)

/-- C8 counterexample: a configuration with one configured epic but no
milestone block.  The dry run still issues zero HTTP calls, but it dies on
the `KeyError` before printing anything, so there is no `[dry-run]` line
for the would-be epic — the claim's "for every configuration … exactly one
line per would-be epic" fails. -/
theorem C8_counterexample :
    (bootstrap cfgC8 true none nowWed Store.empty).2.2.1 = [] ∧
    (bootstrap cfgC8 true none nowWed Store.empty).2.2.2 = [] ∧
    (cfgC8.epics.getD []).length = 1 ∧
    (bootstrap cfgC8 true none nowWed Store.empty).1
      = .error (.keyError "milestone") := by
  exact ⟨rfl, rfl, rfl, rfl⟩

/-- C9: in dry-run mode the token is never consulted — the run's entire
outcome is identical for any value of `SHORTCUT_TOKEN`, including unset —
and on a valid configuration a dry run with no token set completes with
exit code 0. -/
theorem C9_dry_run_needs_no_token :
    (∀ (cfg : Config) (tok tok' : Option String) (nowF : String → Int) (st : Store),
      bootstrap cfg true tok nowF st = bootstrap cfg true tok' nowF st) ∧
    (∀ (cfg : Config) (nowF : String → Int) (st : Store),
      validCfg cfg = true →
      (bootstrap cfg true none nowF st).1 = .ok () ∧
      exitCode (bootstrap cfg true none nowF st).1 = 0) := by
  constructor
  · exact bootstrap_dry_token
  · intro cfg nowF st h
    rw [bootstrap_dry_valid cfg none nowF st h]
    exact ⟨rfl, rfl⟩

/-- C9 witness: a dry run of the fixture configuration with no token set
completes with exit code 0. -/
theorem C9_dry_run_needs_no_token_witness :
    (bootstrap cfgMain true none nowWed Store.empty).1 = .ok () ∧
    exitCode (bootstrap cfgMain true none nowWed Store.empty).1 = 0 :=
  C9_dry_run_needs_no_token.2 cfgMain nowWed Store.empty (by decide)
